import Mathlib

/-!
Shallow embedding of `src/StreamProcessor.js` (class `StreamWeaverProcessor`)
from the repository finite-logic-stream-weaver.

The JS class holds a single piece of mutable state, `this.processedMessages`,
a `Set` of message-id strings.  We model that state explicitly as a
`Finset String` and every method as a pure function that takes the state and
returns the new state together with its return value.

`processMessage(message)` (source lines 22-47):
  - reads `message.id`;
  - computes `isNew = !this.processedMessages.has(messageId)` (line 27);
  - if `isNew`, first adds the id to the set (line 31, commented
    "Mark as processed immediately") and then calls
    `this.executeBusinessLogic(message)` (line 36);
  - returns the record `{id, durationMs, processed: isNew, isNew}`
    (lines 41-46).

`executeBusinessLogic` (lines 53-57) only computes a random delay; it has no
observable effect and cannot fail.  To reason about which messages reach the
business effect we record the arguments passed to it in an explicit log.
Wall-clock time (`Date.now()`) is not modelled; `durationMs` is embedded as 0.
-/

namespace StreamWeaver

/-- A message as used by the source: `{ id, data }` (the demo stream at source
lines 72-79 builds exactly such objects). -/
structure Message where
  id : String
  data : String
deriving DecidableEq, Repr

/-- The record returned by `processMessage` (source lines 41-46):
`{id, durationMs, processed, isNew}`. -/
structure PMResult where
  id : String
  durationMs : Nat
  processed : Bool
  isNew : Bool
deriving DecidableEq, Repr

/-- `executeBusinessLogic` (source lines 53-57): simulates a delay, has no
observable effect on the processor state and no failure path. -/
def executeBusinessLogic (_message : Message) : Unit := ()

/-- The outcome of one `processMessage` call: the new processor state, the
returned record, and the list of messages passed to `executeBusinessLogic`
during the call (empty or a singleton). -/
structure StepOut where
  state : Finset String
  result : PMResult
  effectLog : List Message
deriving DecidableEq

/-- `processMessage` (source lines 22-47).  `s` is `this.processedMessages`
before the call. -/
def processMessage (s : Finset String) (message : Message) : StepOut :=
  let messageId := message.id
  let isNew : Bool := !(decide (messageId ∈ s))
  let s' := if isNew then insert messageId s else s
  let log := if isNew then [message] else []
  { state := s'
    result := { id := messageId, durationMs := 0, processed := isNew, isNew := isNew }
    effectLog := log }

/-- `getUniqueCount` (source lines 62-64): `this.processedMessages.size`. -/
def getUniqueCount (s : Finset String) : Nat :=
  s.card

/-- Sequential delivery of a stream of messages to one processor, as the demo
loop does (source lines 83-93): returns the final state, the per-message
result records in order, and the concatenated effect log. -/
def processStream (s : Finset String) : List Message → Finset String × List PMResult × List Message
  | [] => (s, [], [])
  | m :: ms =>
    let out := processMessage s m
    let rest := processStream out.state ms
    (rest.1, out.result :: rest.2.1, out.effectLog ++ rest.2.2)

/-- Outcome labels of the spec contract.  The code itself returns booleans;
the demo (source line 88) interprets them: `result.isNew ?
"NEW (Processed)" : "DUPLICATE (Skipped)"`. -/
inductive Outcome where
  | Processed
  | SkippedDuplicate
  | Failed
deriving DecidableEq, Repr

/-- The demo's interpretation of a result record as an outcome label
(source line 88). -/
def outcomeOf (r : PMResult) : Outcome :=
  if r.isNew then .Processed else .SkippedDuplicate

/-- The demo message stream (source lines 72-79). -/
def demoStream : List Message :=
  [ ⟨"A1", "Order placed"⟩
  , ⟨"B2", "Inventory check"⟩
  , ⟨"A1", "Order placed (Duplicate)"⟩
  , ⟨"C3", "Payment confirmed"⟩
  , ⟨"B2", "Inventory check (Duplicate)"⟩
  , ⟨"D4", "Shipping label printed"⟩ ]

/-- Generalization of `processMessage` in which the business logic may signal
failure.  The source's `executeBusinessLogic` (lines 53-57) always succeeds;
if it threw an exception, `processMessage` (lines 29-37) has no try/catch, so
the exception would propagate out of the call (modelled as `Except.error`)
AFTER the id was already added to the set at line 31 — there is no rollback
anywhere in the class.  With an always-succeeding executor this function
coincides with `processMessage` (see `processMessageExec_true`). -/
def processMessageExec (exec : Message → Bool) (s : Finset String) (m : Message) :
    Finset String × Except Unit PMResult :=
  let messageId := m.id
  let isNew : Bool := !(decide (messageId ∈ s))
  if isNew then
    let s' := insert messageId s
    if exec m then
      (s', .ok { id := messageId, durationMs := 0, processed := isNew, isNew := isNew })
    else
      (s', .error ())
  else
    (s, .ok { id := messageId, durationMs := 0, processed := isNew, isNew := isNew })

/-- Events performed by one `processMessage` call on the dedup state and the
effect sink, in source order: when the id is new, the add at source line 31
("Mark as processed immediately") happens before the call to
`executeBusinessLogic` at line 36. -/
inductive Event where
  | mark (id : String)
  | effect (id : String)
deriving DecidableEq, Repr

/-- The event trace of one `processMessage` call, read off the source's
statement order (lines 27-37). -/
def processMessageTrace (s : Finset String) (m : Message) : List Event :=
  let isNew : Bool := !(decide (m.id ∈ s))
  if isNew then [.mark m.id, .effect m.id] else []

/-! Helper lemmas -/

lemma processMessage_of_mem (s : Finset String) (m : Message) (h : m.id ∈ s) :
    processMessage s m = ⟨s, ⟨m.id, 0, false, false⟩, []⟩ := by
  simp [processMessage, h]

lemma processMessage_of_not_mem (s : Finset String) (m : Message) (h : m.id ∉ s) :
    processMessage s m = ⟨insert m.id s, ⟨m.id, 0, true, true⟩, [m]⟩ := by
  simp [processMessage, h]

lemma processMessageExec_true (s : Finset String) (m : Message) :
    processMessageExec (fun _ => true) s m =
      ((processMessage s m).state, .ok (processMessage s m).result) := by
  by_cases h : m.id ∈ s <;>
    simp [processMessageExec, processMessage, h]

lemma count_effectLog (msgs : List Message) : ∀ (s : Finset String) (x : String),
    ((processStream s msgs).2.2.map Message.id).count x =
      if x ∈ s then 0 else if x ∈ msgs.map Message.id then 1 else 0 := by
  induction msgs with
  | nil =>
    intro s x
    simp [processStream]
  | cons m ms ih =>
    intro s x
    by_cases h : m.id ∈ s
    · rw [processStream]
      simp only [processMessage_of_mem s m h, List.nil_append]
      rw [ih]
      by_cases hx : x ∈ s
      · simp [hx]
      · have hne : x ≠ m.id := fun he => hx (he ▸ h)
        simp [hx, hne]
    · rw [processStream]
      simp only [processMessage_of_not_mem s m h, List.map_append, List.count_append,
        List.map_cons, List.map_nil]
      rw [ih]
      by_cases he : x = m.id
      · subst he
        simp [h]
      · have hmem : x ∈ insert m.id s ↔ x ∈ s := by
          simp [Finset.mem_insert, he]
        simp [he, hmem, List.count_singleton]

lemma no_admit_of_mem (x : String) (msgs : List Message) :
    ∀ s : Finset String, x ∈ s → (∀ m ∈ msgs, m.id = x) →
    ((processStream s msgs).2.1.filter (fun r => r.isNew)).length = 0 := by
  induction msgs with
  | nil =>
    intro s _ _
    simp [processStream]
  | cons m ms ih =>
    intro s hx hall
    have hm : m.id = x := hall m (List.mem_cons_self m ms)
    have hmem : m.id ∈ s := hm ▸ hx
    rw [processStream]
    simp only [processMessage_of_mem s m hmem, List.filter_cons]
    simp only [Bool.false_eq_true, if_false]
    exact ih s hx (fun m' hm' => hall m' (List.mem_cons_of_mem _ hm'))

lemma state_subset_processStream (msgs : List Message) :
    ∀ s : Finset String, s ⊆ (processStream s msgs).1 := by
  induction msgs with
  | nil =>
    intro s
    simp [processStream]
  | cons m ms ih =>
    intro s
    rw [processStream]
    refine Finset.Subset.trans ?_ (ih (processMessage s m).state)
    by_cases h : m.id ∈ s
    · simp [processMessage_of_mem s m h]
    · simp only [processMessage_of_not_mem s m h]
      exact Finset.subset_insert _ _

/-! Claim theorems -/

/-- Claim C1: for every sequence of messages delivered to a fresh processor,
the business effect (`executeBusinessLogic`) is invoked exactly once per
distinct message id, no matter how many duplicate deliveries of that id
occur: the effect log of the whole stream contains each delivered id exactly
once. -/
theorem effect_invoked_exactly_once_per_id (msgs : List Message) (x : String)
    (h : x ∈ msgs.map Message.id) :
    ((processStream ∅ msgs).2.2.map Message.id).count x = 1 := by
  rw [count_effectLog]
  simp [h]

theorem effect_invoked_exactly_once_per_id_witness :
    "A1" ∈ demoStream.map Message.id ∧
    ((processStream ∅ demoStream).2.2.map Message.id).count "A1" = 1 :=
  ⟨by decide, effect_invoked_exactly_once_per_id demoStream "A1" (by decide)⟩

/-- Claim C2: for a message whose id is already recorded as processed,
`processMessage` reports the duplicate outcome and executes no side effect:
the business effect is not invoked (empty effect log), the seen-set is
unchanged, and the returned record has `isNew = false` and
`processed = false`. -/
theorem duplicate_skipped_no_side_effect (s : Finset String) (m : Message)
    (h : m.id ∈ s) :
    (processMessage s m).state = s ∧
    (processMessage s m).effectLog = [] ∧
    (processMessage s m).result.isNew = false ∧
    (processMessage s m).result.processed = false := by
  simp [processMessage_of_mem s m h]

theorem duplicate_skipped_no_side_effect_witness :
    ("A1" : String) ∈ ({"A1"} : Finset String) ∧
    ((processMessage {"A1"} ⟨"A1", "Order placed"⟩).state = {"A1"} ∧
     (processMessage {"A1"} ⟨"A1", "Order placed"⟩).effectLog = [] ∧
     (processMessage {"A1"} ⟨"A1", "Order placed"⟩).result.isNew = false ∧
     (processMessage {"A1"} ⟨"A1", "Order placed"⟩).result.processed = false) :=
  ⟨by decide, duplicate_skipped_no_side_effect {"A1"} ⟨"A1", "Order placed"⟩ (by decide)⟩

/-- Claim C3 (code bug evidence): when the business logic fails on an admitted
message A1, the code does not return a `Failed` outcome record (the error
escapes the call), the id A1 is NOT rolled back out of the seen-set, and a
subsequent delivery of A1 is reported as a duplicate (`isNew = false`) instead
of being re-admitted — contrary to the claim's rollback/re-admission
behaviour.  The id was added at source line 31 before the effect ran and no
rollback exists in the class. -/
theorem failed_effect_not_rolled_back :
    (processMessageExec (fun _ => false) ∅ ⟨"A1", "Order placed"⟩).2 = .error () ∧
    (processMessageExec (fun _ => false) ∅ ⟨"A1", "Order placed"⟩).1 = {"A1"} ∧
    (processMessage (processMessageExec (fun _ => false) ∅ ⟨"A1", "Order placed"⟩).1
        ⟨"A1", "Order placed"⟩).result.isNew = false :=
  ⟨rfl, by decide, by decide⟩

/-- Claim C4 (code bug evidence): for a never-seen message, the event trace of
`processMessage` is `[mark, effect]` — the id is added to the seen-set
(source line 31, "Mark as processed immediately") BEFORE the business effect
runs (line 36), the opposite of the write-after-effect ordering the claim
states. -/
theorem mark_precedes_effect :
    processMessageTrace ∅ ⟨"A1", "Order placed"⟩ = [.mark "A1", .effect "A1"] := by
  decide

/-- Claim C5: delivering the demo stream [A1, B2, A1, C3, B2, D4] sequentially
to a fresh processor yields outcomes [Processed, Processed, SkippedDuplicate,
Processed, SkippedDuplicate, Processed] (reading each result record through the
demo's own outcome interpretation), and afterwards `getUniqueCount` returns
4. -/
theorem demo_stream_outcomes :
    (processStream ∅ demoStream).2.1.map outcomeOf =
      [.Processed, .Processed, .SkippedDuplicate, .Processed, .SkippedDuplicate, .Processed] ∧
    getUniqueCount (processStream ∅ demoStream).1 = 4 := by
  decide

/-- Claim C6: every `processMessage` call returns a structured record carrying
the message's id, a `durationMs` field and an outcome indication; the outcome
(via the demo's interpretation of the `processed`/`isNew` flags) is always
`Processed` or `SkippedDuplicate` — in particular always one of
{Processed, SkippedDuplicate, Failed}; no reason field exists (the claim
treats it as optional). -/
theorem result_record_shape (s : Finset String) (m : Message) :
    (processMessage s m).result.id = m.id ∧
    (outcomeOf (processMessage s m).result = .Processed ∨
     outcomeOf (processMessage s m).result = .SkippedDuplicate) := by
  by_cases h : m.id ∈ s
  · simp [processMessage_of_mem s m h, outcomeOf]
  · simp [processMessage_of_not_mem s m h, outcomeOf]

/-- Claim C7: any number of admission attempts for the same never-before-seen
identifier (the JS runtime serializes the synchronous `processMessage` calls,
so concurrent delivery is a sequential run of the same calls) yields exactly
one admission (`isNew = true`) — never two, never zero — and the remaining
attempts are rejected as duplicates. -/
theorem same_id_attempts_single_admission (s : Finset String) (x : String)
    (m : Message) (ms : List Message) (hx : x ∉ s)
    (hall : ∀ m' ∈ m :: ms, m'.id = x) :
    ((processStream s (m :: ms)).2.1.filter (fun r => r.isNew)).length = 1 := by
  have hm : m.id = x := hall m (List.mem_cons_self m ms)
  have hnot : m.id ∉ s := hm ▸ hx
  rw [processStream]
  simp only [processMessage_of_not_mem s m hnot, List.filter_cons, if_pos, List.length_cons]
  rw [no_admit_of_mem x ms (insert m.id s) (hm ▸ Finset.mem_insert_self m.id s)
    (fun m' hm' => hall m' (List.mem_cons_of_mem _ hm'))]

theorem same_id_attempts_single_admission_witness :
    (("A1" : String) ∉ (∅ : Finset String) ∧
     ∀ m' ∈ [(⟨"A1", "a"⟩ : Message), ⟨"A1", "b"⟩, ⟨"A1", "c"⟩], m'.id = "A1") ∧
    ((processStream ∅ [(⟨"A1", "a"⟩ : Message), ⟨"A1", "b"⟩, ⟨"A1", "c"⟩]).2.1.filter
      (fun r => r.isNew)).length = 1 :=
  ⟨⟨by decide, by decide⟩,
   same_id_attempts_single_admission ∅ "A1" ⟨"A1", "a"⟩ [⟨"A1", "b"⟩, ⟨"A1", "c"⟩]
     (by decide) (by decide)⟩

/-- Claim C8: the seen-set only grows — after any further stream of calls the
prior seen-set is still contained in the state (no eviction, retention window
or rollback exists; `executeBusinessLogic` and `getUniqueCount` do not touch
the state at all), so an id once recorded is reported as a duplicate forever:
a delivery of it after any stream of other calls has `isNew = false`. -/
theorem seen_set_monotone_duplicate_forever (s : Finset String)
    (msgs : List Message) (m : Message) (h : m.id ∈ s) :
    s ⊆ (processStream s msgs).1 ∧
    (processMessage (processStream s msgs).1 m).result.isNew = false := by
  refine ⟨state_subset_processStream msgs s, ?_⟩
  have hmem : m.id ∈ (processStream s msgs).1 := state_subset_processStream msgs s h
  simp [processMessage_of_mem _ m hmem]

theorem seen_set_monotone_duplicate_forever_witness :
    ("A1" : String) ∈ ({"A1"} : Finset String) ∧
    (({"A1"} : Finset String) ⊆ (processStream {"A1"} [⟨"B2", "Inventory check"⟩]).1 ∧
     (processMessage (processStream {"A1"} [⟨"B2", "Inventory check"⟩]).1
        ⟨"A1", "Order placed"⟩).result.isNew = false) :=
  ⟨by decide,
   seen_set_monotone_duplicate_forever {"A1"} [⟨"B2", "Inventory check"⟩]
     ⟨"A1", "Order placed"⟩ (by decide)⟩

/-- Claim C9: the admission decision does not depend on the message payload:
two messages with the same id but arbitrary `data` fields, presented to the
same prior seen-set, produce the same resulting seen-set, the same `isNew`
and the same `processed` fields. -/
theorem admission_independent_of_payload (s : Finset String) (m1 m2 : Message)
    (h : m1.id = m2.id) :
    (processMessage s m1).state = (processMessage s m2).state ∧
    (processMessage s m1).result.isNew = (processMessage s m2).result.isNew ∧
    (processMessage s m1).result.processed = (processMessage s m2).result.processed := by
  simp [processMessage, h]

theorem admission_independent_of_payload_witness :
    (⟨"A1", "payload one"⟩ : Message).id = (⟨"A1", "payload two"⟩ : Message).id ∧
    ((processMessage ∅ ⟨"A1", "payload one"⟩).state =
        (processMessage ∅ ⟨"A1", "payload two"⟩).state ∧
     (processMessage ∅ ⟨"A1", "payload one"⟩).result.isNew =
        (processMessage ∅ ⟨"A1", "payload two"⟩).result.isNew ∧
     (processMessage ∅ ⟨"A1", "payload one"⟩).result.processed =
        (processMessage ∅ ⟨"A1", "payload two"⟩).result.processed) :=
  ⟨by decide,
   admission_independent_of_payload ∅ ⟨"A1", "payload one"⟩ ⟨"A1", "payload two"⟩ (by decide)⟩

/-- Claim C10: in every record returned by `processMessage`, the `processed`
field equals the `isNew` field (source line 44: `processed: isNew`). -/
theorem processed_eq_isNew (s : Finset String) (m : Message) :
    (processMessage s m).result.processed = (processMessage s m).result.isNew :=
  rfl

end StreamWeaver
